import Mathlib

/-!
# Verification of the devdonalds cookbook service core

Shallow embedding of `src/backend/py_template/devdonalds.py`:

* `parse_handwriting` — Task 1 name normalization (lines 44-61);
* `createEntry` / `createFromEntry` / `parseItems` — Task 2 entry creation
  and validation (lines 66-136);
* `expandFuel` / `expandReqsAux` / `summaryE` — Task 3 recursive expansion
  and the summary endpoint (lines 139-197).

Python dictionaries are modelled as insertion-ordered association lists;
unbounded Python recursion is modelled by an explicit fuel parameter whose
exhaustion stands for the host interpreter recursion limit
(`RecursionError`), which the endpoint catches as a generic rejection.
-/

namespace Devdonalds

/-- A parsed JSON value, the shape of `request.get_json()` payloads.
Objects are insertion-ordered association lists, as Python dicts are. -/
inductive Json where
  | null : Json
  | int : Int → Json
  | str : String → Json
  | arr : List Json → Json
  | obj : List (String × Json) → Json

/-- `d.get(key)` on a Python dict: `some` the value when present, else
`none`; on a non-object it never succeeds. -/
def jGet (j : Json) (key : String) : Option Json :=
  match j with
  | Json.obj fields => List.lookup key fields
  | _ => none

/-- One element of a recipe: `RequiredItem` (devdonalds.py lines 11-14). -/
structure RequiredItem where
  name : String
  quantity : Int
deriving DecidableEq, Repr

/-- A cookbook value. The Python store is annotated
`Dict[str, Union[Recipe, Ingredient]]` but is dynamically typed, and the
expander (line 165) defends against any other value with a fallback
`ValueError("unknown entry type")`; the `other` constructor stands for such
a value, so that reachability of the fallback can be stated. -/
inductive Entry where
  | ingredient (name : String) (cook_time : Int) : Entry
  | recipe (name : String) (required_items : List RequiredItem) : Entry
  | other : Entry
deriving DecidableEq, Repr

/-- The global `cookbook` dict: insertion-ordered name-to-entry pairs. -/
abbrev Store := List (String × Entry)

/-- The `acc` dict of `_expand_to_ingredients`: insertion-ordered
ingredient-name-to-quantity pairs. -/
abbrev Acc := List (String × Int)

/-! ## Task 1: parse_handwriting (lines 44-61) -/

/-- ASCII-whitespace reading of the regex class `\s` used at lines 49
and 52 (space, tab, newline, carriage return, vertical tab, form feed). -/
def isPyWhitespace (c : Char) : Bool :=
  c == ' ' || c == '\t' || c == '\n' || c == '\r' || c == '\x0b' || c == '\x0c'

/-- The whitespace-run substitution of line 52: each maximal whitespace
run becomes a single space. -/
def collapseRuns : List Char → List Char
  | [] => []
  | [c] => if isPyWhitespace c then [' '] else [c]
  | c :: d :: rest =>
    if isPyWhitespace c then
      if isPyWhitespace d then collapseRuns (d :: rest)
      else ' ' :: collapseRuns (d :: rest)
    else c :: collapseRuns (d :: rest)

/-- `str.strip()` at line 52: drop whitespace at both ends. -/
def trimWs (l : List Char) : List Char :=
  ((l.dropWhile isPyWhitespace).reverse.dropWhile isPyWhitespace).reverse

/-- The split at single spaces of line 59, on a list of characters:
empty words are kept, as Python does. -/
def splitOnSpace : List Char → List (List Char)
  | [] => [[]]
  | c :: rest =>
    let r := splitOnSpace rest
    if c == ' ' then [] :: r
    else
      match r with
      | [] => [[c]]
      | w :: ws => (c :: w) :: ws

/-- Line 60: upper-case the first character of a word and lower-case the
remainder; the empty word stays empty. -/
def capWord : List Char → List Char
  | [] => []
  | c :: rest => c.toUpper :: rest.map Char.toLower

/-- Task 1 `parse_handwriting` (lines 44-61): replace hyphens and
underscores by spaces, keep only ASCII letters and whitespace, collapse
whitespace runs and trim, reject the empty result, then title-case each
word. -/
def parse_handwriting (recipeName : String) : Option String :=
  let s1 := recipeName.data.map (fun c => if c == '-' || c == '_' then ' ' else c)
  let s2 := s1.filter (fun c => c.isAlpha || isPyWhitespace c)
  let s3 := trimWs (collapseRuns s2)
  if s3.isEmpty then none
  else some (String.mk (List.intercalate [' '] ((splitOnSpace s3).map capWord)))

/-! ## Task 2: create_entry (lines 66-136) -/

/-- Line 75: `entry = data.get("entry") if isinstance(data.get("entry"), dict)
else data` — accept a payload wrapped under an `entry` key when that value
is an object, otherwise use the payload itself. -/
def unwrapEntry (data : Json) : Json :=
  match jGet data "entry" with
  | some (Json.obj fields) => Json.obj fields
  | _ => data

/-- The `requiredItems` loop of `create_entry` (lines 109-129): each element
must be an object with a non-empty string `name` and an integer `quantity`,
and no `name` may repeat (`seen_names`). Returns the parsed items in order,
or `none` for the 400 rejection. -/
def parseItems : List Json → List String → Option (List RequiredItem)
  | [], _ => some []
  | item :: rest, seen_names =>
    match item with
    | Json.obj _ =>
      match jGet item "name", jGet item "quantity" with
      | some (Json.str item_name), some (Json.int quantity) =>
        if (trimWs item_name.data).isEmpty then none
        else if seen_names.contains item_name then none
        else
          match parseItems rest (item_name :: seen_names) with
          | some ps => some ({ name := item_name, quantity := quantity } :: ps)
          | none => none
      | _, _ => none
    | _ => none

/-- Lines 76-132 of `create_entry`, operating on the unwrapped `entry`
object: check `type`, a non-empty unique `name`, then either `cookTime >= 0`
for an ingredient or the validated `requiredItems` for a recipe. `none` is
the 400 rejection; `some` is the updated cookbook (Python dict insertion
appends the new key at the end). -/
def createFromEntry (cookbook : Store) (entry : Json) : Option Store :=
  match entry with
  | Json.obj _ =>
    match jGet entry "type" with
    | some (Json.str entry_type) =>
      if entry_type ≠ "recipe" ∧ entry_type ≠ "ingredient" then none
      else
        match jGet entry "name" with
        | some (Json.str name) =>
          if (trimWs name.data).isEmpty then none
          else if (List.lookup name cookbook).isSome then none
          else if entry_type = "ingredient" then
            match jGet entry "cookTime" with
            | some (Json.int cook_time) =>
              if cook_time < 0 then none
              else some (cookbook ++ [(name, Entry.ingredient name cook_time)])
            | _ => none
          else
            match jGet entry "requiredItems" with
            | some (Json.arr required_items) =>
              match parseItems required_items [] with
              | some parsed_items =>
                some (cookbook ++ [(name, Entry.recipe name parsed_items)])
              | none => none
            | _ => none
        | _ => none
    | _ => none
  | _ => none

/-- `create_entry` (lines 66-136): the body of the POST /entry handler on a
parsed JSON payload. The payload must be an object (line 71); the handler
then works on the unwrapped entry. -/
def createEntry (cookbook : Store) (data : Json) : Option Store :=
  match data with
  | Json.obj _ => createFromEntry cookbook (unwrapEntry data)
  | _ => none

/-- The store after a POST /entry request: the new store on success,
unchanged on rejection. -/
def applyCreate (store : Store) (data : Json) : Store :=
  (createEntry store data).getD store

/-- The `name` field of the (unwrapped) payload object — the key under which
`create_entry` would insert. -/
def payloadName (data : Json) : Option String :=
  match data with
  | Json.obj _ =>
    match jGet (unwrapEntry data) "name" with
    | some (Json.str nm) => some nm
    | _ => none
  | _ => none

/-- The `name` field of one element of a `requiredItems` array, when it is
an object with a string name. -/
def itemNameOf (j : Json) : Option String :=
  match jGet j "name" with
  | some (Json.str s) => some s
  | _ => none

/-- A store built from the empty cookbook by a sequence of POST /entry
requests. -/
def buildStore (reqs : List Json) : Store :=
  reqs.foldl applyCreate []

/-! ## Task 3: _expand_to_ingredients and summary (lines 139-197) -/

/-- How one run of `_expand_to_ingredients` ends abnormally:
`missingEntry` is the `KeyError` at line 146, `unknownEntryType` the
`ValueError` at line 165, and `hostStackExhausted` models the Python
interpreter recursion limit (`RecursionError`) — the code itself carries no
depth or cycle guard, so exhaustion of the modelling fuel is the only way
unbounded recursion stops. -/
inductive ExpErr where
  | missingEntry : ExpErr
  | unknownEntryType : ExpErr
  | hostStackExhausted : ExpErr
deriving DecidableEq, Repr

deriving instance DecidableEq for Except

/-- Line 152: `acc[entry.name] = acc.get(entry.name, 0) + multiplier`, on an
insertion-ordered dict. -/
def accAdd : Acc → String → Int → Acc
  | [], nm, m => [(nm, m)]
  | (k, v) :: rest, nm, m =>
    if k = nm then (k, v + m) :: rest
    else (k, v) :: accAdd rest nm m

/-- The `for req in entry.required_items` loop (lines 157-163): run the
one-level-deeper expansion `expand` on each required item with the
multiplier scaled by its quantity, threading `acc` and summing the
returned cook times. (The `isinstance(req.quantity, int)` guard at line 160
cannot fail here because `quantity` is an integer by type.) -/
def expandReqsAux (expand : String → Int → Acc → Except ExpErr (Int × Acc)) :
    List RequiredItem → Int → Acc → Except ExpErr (Int × Acc)
  | [], _, acc => Except.ok (0, acc)
  | req :: rest, multiplier, acc =>
    match expand req.name (multiplier * req.quantity) acc with
    | Except.error e => Except.error e
    | Except.ok (t, acc2) =>
      match expandReqsAux expand rest multiplier acc2 with
      | Except.error e => Except.error e
      | Except.ok (t2, acc3) => Except.ok (t + t2, acc3)

/-- `_expand_to_ingredients` (lines 139-165), with `fuel` bounding the
depth of nested Python stack frames: at fuel zero the host stack is
exhausted; otherwise look the name up (missing raises `KeyError`), an
ingredient leaf contributes `cook_time * multiplier` and adds `multiplier`
to its accumulator entry, and a recipe node expands each required item one
frame deeper. -/
def expandFuel (store : Store) : Nat → String → Int → Acc → Except ExpErr (Int × Acc)
  | 0, _, _, _ => Except.error ExpErr.hostStackExhausted
  | Nat.succ n, entry_name, multiplier, acc =>
    match List.lookup entry_name store with
    | none => Except.error ExpErr.missingEntry
    | some (Entry.ingredient nm ct) => Except.ok (ct * multiplier, accAdd acc nm multiplier)
    | some (Entry.recipe _ reqs) => expandReqsAux (expandFuel store n) reqs multiplier acc
    | some Entry.other => Except.error ExpErr.unknownEntryType

/-- The successful response body of GET /summary (lines 190-194). -/
structure SummaryResult where
  name : String
  cookTime : Int
  ingredients : List (String × Int)
deriving DecidableEq, Repr

/-- `summary` (lines 167-197): the GET /summary handler. The name must be
non-empty, present, and a Recipe (not an Ingredient, not anything else);
then the recursive expansion runs with multiplier 1 and an empty
accumulator, and any exception — missing reference, unknown entry type, or
the modelled recursion-limit blowup — is caught as the 400 rejection
`none`. -/
def summaryE (store : Store) (fuel : Nat) (name : String) : Option SummaryResult :=
  if name.data.isEmpty || (trimWs name.data).isEmpty then none
  else
    match List.lookup name store with
    | none => none
    | some (Entry.ingredient _ _) => none
    | some Entry.other => none
    | some (Entry.recipe _ _) =>
      match expandFuel store fuel name 1 [] with
      | Except.error _ => none
      | Except.ok (t, acc) => some { name := name, cookTime := t, ingredients := acc }

/-- The GET /summary handler as a state transformer on the cookbook: it
produces a response and the cookbook afterwards. The handler body
(lines 167-197) and the expander it calls (lines 139-165) only ever read
`cookbook` — the sole assignment to the store in the program is in
`create_entry` — so the post-state is the pre-state. -/
def summaryOp (store : Store) (fuel : Nat) (name : String) :
    Option SummaryResult × Store :=
  (summaryE store fuel name, store)

/-- The concrete store of the linear-multiplicativity example: recipe R
requires 2 of recipe S, S requires 3 of ingredient I, I cooks in 5. -/
def exampleStore : Store :=
  [("R", Entry.recipe "R" [{ name := "S", quantity := 2 }]),
   ("S", Entry.recipe "S" [{ name := "I", quantity := 3 }]),
   ("I", Entry.ingredient "I" 5)]

/-- A store whose single recipe requires itself. -/
def cyclicStore : Store :=
  [("r", Entry.recipe "r" [{ name := "r", quantity := 1 }])]

def isObjOpt : Option Json → Bool
  | some (Json.obj _) => true
  | _ => false

def nestedPayload : Json :=
  Json.obj [("entry", Json.obj [("type", Json.str "ingredient"),
    ("name", Json.str "a"), ("cookTime", Json.int 1)])]

def NotOther (store : Store) : Prop :=
  ∀ nm e, List.lookup nm store = some e → e ≠ Entry.other

def isUnknownErr : Except ExpErr (Int × Acc) → Bool
  | Except.error ExpErr.unknownEntryType => true
  | _ => false

def dupItem : Json := Json.obj [("name", Json.str "x"), ("quantity", Json.int 1)]

def dupPayload : Json :=
  Json.obj [("type", Json.str "recipe"), ("name", Json.str "n"),
    ("requiredItems", Json.arr [dupItem, dupItem])]


theorem lookup_append {β : Type} (k : String) (l₁ l₂ : List (String × β)) :
    List.lookup k (l₁ ++ l₂) = ((List.lookup k l₁).orElse fun _ => List.lookup k l₂) := by
  induction l₁ with
  | nil => simp [List.lookup]
  | cons p rest ih =>
    obtain ⟨a, b⟩ := p
    by_cases hk : k = a
    · subst hk; simp [List.lookup]
    · have hba : (k == a) = false := by simpa using hk
      simp [List.lookup, hba, ih]

theorem collapseRuns_all_ws :
    ∀ l : List Char, (∀ c ∈ l, isPyWhitespace c) →
      collapseRuns l = [] ∨ collapseRuns l = [' '] := by
  intro l
  induction l with
  | nil => intro _; exact Or.inl rfl
  | cons c rest ih =>
    intro h
    cases rest with
    | nil =>
      right
      simp [collapseRuns, h c (by simp)]
    | cons d rest2 =>
      have hc : isPyWhitespace c := h c (by simp)
      have hd : isPyWhitespace d := h d (by simp)
      have hstep : collapseRuns (c :: d :: rest2) = collapseRuns (d :: rest2) := by
        simp [collapseRuns, hc, hd]
      rw [hstep]
      exact ih (fun x hx => h x (List.mem_cons_of_mem c hx))

/-- C6: every raw string without an ASCII letter is rejected by
parse_handwriting. -/
theorem normalize_rejects_letterless (s : String)
    (h : ∀ c ∈ s.data, c.isAlpha = false) :
    parse_handwriting s = none := by
  have key : ∀ c ∈ (s.data.map (fun c => if c == '-' || c == '_' then ' ' else c)).filter
      (fun c => c.isAlpha || isPyWhitespace c), isPyWhitespace c := by
    intro c hc
    rw [List.mem_filter] at hc
    obtain ⟨hc1, hc2⟩ := hc
    rw [List.mem_map] at hc1
    obtain ⟨d, hd, hdc⟩ := hc1
    by_cases hsep : (d == '-' || d == '_') = true
    · rw [if_pos hsep] at hdc
      rw [← hdc]
      rfl
    · rw [if_neg (by simpa using hsep)] at hdc
      rw [← hdc]
      rw [← hdc] at hc2
      simpa [h d hd] using hc2
  simp only [parse_handwriting]
  rcases collapseRuns_all_ws _ key with hcr | hcr <;> rw [hcr] <;> rfl

theorem c6_witness :
    (∀ c ∈ ("123- _!" : String).data, c.isAlpha = false) ∧ parse_handwriting "123- _!" = none :=
  ⟨by decide, normalize_rejects_letterless "123- _!" (by decide)⟩

/-- C7: the two normalization examples. -/
theorem normalize_examples :
    parse_handwriting "fried-rice_2" = some "Fried Rice" ∧
    parse_handwriting "   chicken   soup " = some "Chicken Soup" := by
  constructor <;> decide

/-- C1: on the self-referential store, the expander never returns a value or
a guard-reported error: every finite stack budget is exhausted, and the
endpoint converts that into the generic rejection. -/
theorem cyclic_recipe_exhausts_host_stack :
    (∀ fuel mult acc, expandFuel cyclicStore fuel "r" mult acc =
      Except.error ExpErr.hostStackExhausted) ∧
    (∀ fuel, summaryE cyclicStore fuel "r" = none) := by
  have main : ∀ fuel mult acc, expandFuel cyclicStore fuel "r" mult acc =
      Except.error ExpErr.hostStackExhausted := by
    intro fuel
    induction fuel with
    | zero => intro mult acc; rfl
    | succ n ih =>
      intro mult acc
      rw [show expandFuel cyclicStore (n+1) "r" mult acc =
        expandReqsAux (expandFuel cyclicStore n) [{ name := "r", quantity := 1 }] mult acc from rfl]
      simp only [expandReqsAux, ih]
  refine ⟨main, fun fuel => ?_⟩
  simp only [summaryE]
  rw [if_neg (by decide)]
  have hl : List.lookup "r" cyclicStore = some (Entry.recipe "r" [{ name := "r", quantity := 1 }]) := rfl
  rw [hl, main fuel 1 []]

/-- C8: the summary operation is a pure read — the store after the call is
the store before it, and an immediate second call on the resulting store
returns the identical response (cook time and ingredient list, order
included). -/
theorem expansion_pure_idempotent :
    ∀ store fuel nm,
      (summaryOp store fuel nm).2 = store ∧
      (summaryOp (summaryOp store fuel nm).2 fuel nm).1 = (summaryOp store fuel nm).1 :=
  fun _ _ _ => ⟨rfl, rfl⟩

/-- C2: expanding the example store (R requires 2 S, S requires 3 I, I cooks
in 5) yields ingredient I with quantity 6 and total cook time 30; an
ingredient leaf reached with a multiplier adds that multiplier to its
accumulator entry and contributes cook time times multiplier; a recipe node
expands its required items with the multiplier scaled by each quantity. -/
theorem expansion_linear_multiplicative :
    (summaryE exampleStore 3 "R" =
      some { name := "R", cookTime := 30, ingredients := [("I", 6)] }) ∧
    (∀ store n nm inm ct mult acc,
      List.lookup nm store = some (Entry.ingredient inm ct) →
      expandFuel store (n + 1) nm mult acc = Except.ok (ct * mult, accAdd acc inm mult)) ∧
    (∀ store n nm rn reqs mult acc,
      List.lookup nm store = some (Entry.recipe rn reqs) →
      expandFuel store (n + 1) nm mult acc = expandReqsAux (expandFuel store n) reqs mult acc) ∧
    (∀ expand req rest mult acc,
      expandReqsAux expand (req :: rest) mult acc =
        match expand req.name (mult * req.quantity) acc with
        | Except.error e => Except.error e
        | Except.ok (t, acc2) =>
          match expandReqsAux expand rest mult acc2 with
          | Except.error e => Except.error e
          | Except.ok (t2, acc3) => Except.ok (t + t2, acc3)) := by
  refine ⟨by decide, ?_, ?_, ?_⟩
  · intro store n nm inm ct mult acc hl
    show (match List.lookup nm store with
      | none => Except.error ExpErr.missingEntry
      | some (Entry.ingredient nm2 ct2) => Except.ok (ct2 * mult, accAdd acc nm2 mult)
      | some (Entry.recipe _ reqs) => expandReqsAux (expandFuel store n) reqs mult acc
      | some Entry.other => Except.error ExpErr.unknownEntryType) = _
    rw [hl]
  · intro store n nm rn reqs mult acc hl
    show (match List.lookup nm store with
      | none => Except.error ExpErr.missingEntry
      | some (Entry.ingredient nm2 ct2) => Except.ok (ct2 * mult, accAdd acc nm2 mult)
      | some (Entry.recipe _ reqs) => expandReqsAux (expandFuel store n) reqs mult acc
      | some Entry.other => Except.error ExpErr.unknownEntryType) = _
    rw [hl]
  · intro expand req rest mult acc
    rfl

theorem c2_witness :
    (List.lookup "I" exampleStore = some (Entry.ingredient "I" 5) ∧
      expandFuel exampleStore 1 "I" 6 [] = Except.ok (5 * 6, accAdd [] "I" 6)) ∧
    (List.lookup "S" exampleStore = some (Entry.recipe "S" [{ name := "I", quantity := 3 }]) ∧
      expandFuel exampleStore 2 "S" 2 [] =
        expandReqsAux (expandFuel exampleStore 1) [{ name := "I", quantity := 3 }] 2 []) :=
  ⟨⟨by decide, expansion_linear_multiplicative.2.1 exampleStore 0 "I" "I" 5 6 [] (by decide)⟩,
   ⟨by decide, expansion_linear_multiplicative.2.2.1 exampleStore 1 "S" "S"
      [{ name := "I", quantity := 3 }] 2 [] (by decide)⟩⟩

/-- C3: the summary endpoint rejects when the requested name is absent or
names an ingredient; a missing reference reached anywhere during expansion
raises the missing-entry error; and whenever expansion ends in any error,
the endpoint returns the bare rejection with no partial result. -/
theorem summary_failure_semantics :
    (∀ store fuel nm, List.lookup nm store = none → summaryE store fuel nm = none) ∧
    (∀ store fuel nm inm ct, List.lookup nm store = some (Entry.ingredient inm ct) →
      summaryE store fuel nm = none) ∧
    (∀ store n nm mult acc, List.lookup nm store = none →
      expandFuel store (n + 1) nm mult acc = Except.error ExpErr.missingEntry) ∧
    (∀ store fuel nm e, expandFuel store fuel nm 1 [] = Except.error e →
      summaryE store fuel nm = none) := by
  refine ⟨?_, ?_, ?_, ?_⟩
  · intro store fuel nm h
    unfold summaryE
    split
    · rfl
    · rw [h]
  · intro store fuel nm inm ct h
    unfold summaryE
    split
    · rfl
    · rw [h]
  · intro store n nm mult acc h
    show (match List.lookup nm store with
      | none => Except.error ExpErr.missingEntry
      | some (Entry.ingredient nm2 ct2) => Except.ok (ct2 * mult, accAdd acc nm2 mult)
      | some (Entry.recipe _ reqs) => expandReqsAux (expandFuel store n) reqs mult acc
      | some Entry.other => Except.error ExpErr.unknownEntryType) = _
    rw [h]
  · intro store fuel nm e h
    unfold summaryE
    split
    · rfl
    · cases hl : List.lookup nm store with
      | none => rfl
      | some entry =>
        cases entry with
        | ingredient a b => rfl
        | other => rfl
        | recipe a b => rw [h]

theorem c3_witness :
    (List.lookup "x" [("i", Entry.ingredient "i" 2)] = none ∧
      summaryE [("i", Entry.ingredient "i" 2)] 5 "x" = none) ∧
    (List.lookup "i" [("i", Entry.ingredient "i" 2)] = some (Entry.ingredient "i" 2) ∧
      summaryE [("i", Entry.ingredient "i" 2)] 5 "i" = none) ∧
    (expandFuel [("i", Entry.ingredient "i" 2)] 1 "x" 1 [] =
      Except.error ExpErr.missingEntry) ∧
    (summaryE [("i", Entry.ingredient "i" 2)] 5 "x" = none) :=
  ⟨⟨by decide, summary_failure_semantics.1 _ 5 "x" (by decide)⟩,
   ⟨by decide, summary_failure_semantics.2.1 _ 5 "i" "i" 2 (by decide)⟩,
   summary_failure_semantics.2.2.1 _ 0 "x" 1 [] (by decide),
   summary_failure_semantics.2.2.2 _ 5 "x" ExpErr.missingEntry (by decide)⟩

theorem createFromEntry_some {s : Store} {entry : Json} {s' : Store}
    (h : createFromEntry s entry = some s') :
    ∃ nm e, jGet entry "name" = some (Json.str nm) ∧ List.lookup nm s = none ∧
      s' = s ++ [(nm, e)] ∧ e ≠ Entry.other := by
  unfold createFromEntry at h
  split at h <;> try cases h
  split at h <;> try cases h
  split at h <;> try cases h
  case _ fields htype hne =>
    split at h <;> try cases h
    case _ name hname =>
      split at h <;> try cases h
      split at h <;> try cases h
      case _ hempty hdup =>
        split at h
        · split at h <;> try cases h
          case _ ct hct =>
            split at h <;> try cases h
            case _ hneg =>
              refine ⟨name, Entry.ingredient name ct, hname, ?_, rfl, by simp⟩
              exact Option.not_isSome_iff_eq_none.mp hdup
        · split at h <;> try cases h
          case _ items hitems =>
            split at h <;> try cases h
            case _ parsed hparsed =>
              refine ⟨name, Entry.recipe name parsed, hname, ?_, rfl, by simp⟩
              exact Option.not_isSome_iff_eq_none.mp hdup

theorem createEntry_some {s : Store} {data : Json} {s' : Store}
    (h : createEntry s data = some s') :
    ∃ nm e, payloadName data = some nm ∧ List.lookup nm s = none ∧
      s' = s ++ [(nm, e)] ∧ e ≠ Entry.other := by
  unfold createEntry at h
  split at h <;> try cases h
  case _ fields =>
    obtain ⟨nm, e, hname, hnew, hs, hother⟩ := createFromEntry_some h
    refine ⟨nm, e, ?_, hnew, hs, hother⟩
    unfold payloadName
    rw [hname]

/-- C4: a rejected POST /entry leaves the store unchanged; after a
successful insertion, any later payload carrying the same name — of either
entry kind — is rejected and leaves the store unchanged; and the store
after the first insertion holds exactly that first entry under the name. -/
theorem create_entry_atomic_unique :
    (∀ store data, createEntry store data = none → applyCreate store data = store) ∧
    (∀ store p s' q, createEntry store p = some s' → payloadName q = payloadName p →
      createEntry s' q = none ∧ applyCreate s' q = s') ∧
    (∀ store p s' nm, createEntry store p = some s' → payloadName p = some nm →
      ∃ e, List.lookup nm s' = some e ∧ s' = store ++ [(nm, e)]) := by
  have retain : ∀ store (p : Json) s' nm, createEntry store p = some s' →
      payloadName p = some nm → ∃ e, List.lookup nm s' = some e ∧ s' = store ++ [(nm, e)] := by
    intro store p s' nm h hp
    obtain ⟨nm2, e, hname, hnew, hs, _⟩ := createEntry_some h
    rw [hp] at hname
    cases hname
    refine ⟨e, ?_, hs⟩
    rw [hs, lookup_append, hnew]
    simp [List.lookup]
  refine ⟨?_, ?_, retain⟩
  · intro store data h
    unfold applyCreate
    rw [h]
    rfl
  · intro store p s' q h hq
    have hnone : createEntry s' q = none := by
      cases hc : createEntry s' q with
      | none => rfl
      | some s'' =>
        obtain ⟨nm, e, hnameq, hnewq, _, _⟩ := createEntry_some hc
        obtain ⟨nmp, ep, hnamep, _, _, _⟩ := createEntry_some h
        rw [hq, hnamep] at hnameq
        cases hnameq
        obtain ⟨e2, he2, _⟩ := retain store p s' nm h hnamep
        rw [hnewq] at he2
        cases he2
    exact ⟨hnone, by unfold applyCreate; rw [hnone]; rfl⟩

theorem c4_witness :
    (createEntry [("z", Entry.ingredient "z" 0)]
        (Json.obj [("type", Json.str "recipe")]) = none ∧
      applyCreate [("z", Entry.ingredient "z" 0)]
        (Json.obj [("type", Json.str "recipe")]) = [("z", Entry.ingredient "z" 0)]) ∧
    (createEntry [("a", Entry.ingredient "a" 1)]
        (Json.obj [("type", Json.str "recipe"), ("name", Json.str "a"),
          ("requiredItems", Json.arr [])]) = none) ∧
    (List.lookup "a" [("a", Entry.ingredient "a" 1)] = some (Entry.ingredient "a" 1)) := by
  refine ⟨⟨by decide, ?_⟩, ?_, by decide⟩
  · exact create_entry_atomic_unique.1 [("z", Entry.ingredient "z" 0)]
      (Json.obj [("type", Json.str "recipe")]) (by decide)
  · exact (create_entry_atomic_unique.2.1 []
      (Json.obj [("type", Json.str "ingredient"), ("name", Json.str "a"), ("cookTime", Json.int 1)])
      [("a", Entry.ingredient "a" 1)]
      (Json.obj [("type", Json.str "recipe"), ("name", Json.str "a"),
        ("requiredItems", Json.arr [])])
      (by decide) (by decide)).1

theorem parseItems_names :
    ∀ (items : List Json) (seen : List String) (ps : List RequiredItem),
      parseItems items seen = some ps →
      items.map itemNameOf = ps.map (fun r => some r.name) ∧
      (ps.map RequiredItem.name).Nodup ∧
      ∀ x ∈ ps.map RequiredItem.name, ¬ x ∈ seen := by
  intro items
  induction items with
  | nil =>
    intro seen ps h
    cases h
    simp
  | cons item rest ih =>
    intro seen ps h
    cases item with
    | null => exact Option.noConfusion h
    | int a => exact Option.noConfusion h
    | str a => exact Option.noConfusion h
    | arr a => exact Option.noConfusion h
    | obj fields =>
      simp only [parseItems] at h
      split at h <;> try cases h
      rename_i inm q hnm hq
      split at h <;> try cases h
      rename_i hempty
      split at h <;> try cases h
      rename_i hcontains
      split at h <;> try cases h
      rename_i ps' hps'
      obtain ⟨hmap, hnodup, hseen⟩ := ih (inm :: seen) ps' hps'
      have hinm : itemNameOf (Json.obj fields) = some inm := by
        unfold itemNameOf
        rw [hnm]
      have hnotseen : ¬ inm ∈ seen := by
        rw [Bool.not_eq_true] at hcontains
        simpa using hcontains
      refine ⟨by simp [hinm, hmap], ?_, ?_⟩
      · rw [List.map_cons, List.nodup_cons]
        refine ⟨?_, hnodup⟩
        intro hmem
        exact (hseen inm hmem) (List.mem_cons_self inm seen)
      · intro x hx
        rw [List.map_cons] at hx
        rcases List.mem_cons.mp hx with hx | hx
        · subst hx; exact hnotseen
        · intro hmem
          exact (hseen x hx) (List.mem_cons_of_mem inm hmem)

theorem parseItems_dup_none (items : List Json) (i j : Nat) (s : String)
    (hi : i < items.length) (hj : j < items.length) (hij : i ≠ j)
    (hni : itemNameOf items[i] = some s) (hnj : itemNameOf items[j] = some s) :
    parseItems items [] = none := by
  cases hp : parseItems items [] with
  | none => rfl
  | some ps =>
    exfalso
    obtain ⟨hmap, hnodup, _⟩ := parseItems_names items [] ps hp
    have hlen : items.length = ps.length := by
      have hc := congrArg List.length hmap
      simpa using hc
    have hips : i < ps.length := hlen ▸ hi
    have hjps : j < ps.length := hlen ▸ hj
    have hname : ∀ k (hk : k < items.length) (hk2 : k < ps.length),
        itemNameOf items[k] = some (ps[k].name) := by
      intro k hk hk2
      have h1 : (items.map itemNameOf)[k]? = (ps.map (fun r => some r.name))[k]? := by
        rw [hmap]
      simp only [List.getElem?_map, List.getElem?_eq_getElem, hk, hk2] at h1
      simpa using h1
    have hieq : ps[i].name = s := by
      have := hname i hi hips
      rw [hni] at this
      exact (Option.some_injective _ this).symm
    have hjeq : ps[j].name = s := by
      have := hname j hj hjps
      rw [hnj] at this
      exact (Option.some_injective _ this).symm
    have hmapi : (ps.map RequiredItem.name).get ⟨i, by simpa using hips⟩ =
        (ps.map RequiredItem.name).get ⟨j, by simpa using hjps⟩ := by
      simp only [List.get_eq_getElem, List.getElem_map]
      rw [hieq, hjeq]
    have hfin := hnodup.get_inj_iff.mp hmapi
    exact hij (by simpa using hfin)

/-- C5: a recipe payload whose requiredItems array holds two elements with
the same name is rejected by POST /entry, and the store is unchanged. -/
theorem duplicate_required_items_rejected :
    ∀ (store : Store) (data : Json) (items : List Json) (i j : Nat) (s : String)
      (hi : i < items.length) (hj : j < items.length),
      i ≠ j →
      jGet (unwrapEntry data) "type" = some (Json.str "recipe") →
      jGet (unwrapEntry data) "requiredItems" = some (Json.arr items) →
      itemNameOf items[i] = some s → itemNameOf items[j] = some s →
      createEntry store data = none ∧ applyCreate store data = store := by
  intro store data items i j s hi hj hij ht hr hni hnj
  have hpi : parseItems items [] = none :=
    parseItems_dup_none items i j s hi hj hij hni hnj
  have hmain : ∀ (entry : Json), jGet entry "type" = some (Json.str "recipe") →
      jGet entry "requiredItems" = some (Json.arr items) →
      createFromEntry store entry = none := by
    intro entry ht2 hr2
    cases entry with
    | null => exact Option.noConfusion ht2
    | int a => exact Option.noConfusion ht2
    | str a => exact Option.noConfusion ht2
    | arr a => exact Option.noConfusion ht2
    | obj fields =>
      simp only [createFromEntry]
      split
      case _ entry_type htype =>
        rw [ht2] at htype
        injection htype with htype2
        injection htype2 with htype3
        subst htype3
        rw [if_neg (by simp)]
        split
        case _ name hname =>
          split
          · rfl
          · split
            · rfl
            · rw [if_neg (by decide)]
              split
              case _ required_items hreq =>
                rw [hr2] at hreq
                injection hreq with hreq2
                injection hreq2 with hreq3
                subst hreq3
                rw [hpi]
              case _ => rfl
        case _ => rfl
      case _ => rfl
  have hnone : createEntry store data = none := by
    cases data with
    | null => rfl
    | int a => rfl
    | str a => rfl
    | arr a => rfl
    | obj fields =>
      simp only [createEntry]
      exact hmain (unwrapEntry (Json.obj fields)) ht hr
  exact ⟨hnone, by unfold applyCreate; rw [hnone]; rfl⟩

/-- C10 (counterexample): for the payload that itself carries an object
under an entry key, submitting it wrapped and submitting it directly give
different outcomes — the wrapped form is rejected while the direct form
creates the ingredient. -/
theorem wrapped_entry_not_transparent :
    createEntry [] (Json.obj [("entry", nestedPayload)]) = none ∧
    createEntry [] nestedPayload = some [("a", Entry.ingredient "a" 1)] ∧
    createEntry [] (Json.obj [("entry", nestedPayload)]) ≠ createEntry [] nestedPayload := by
  refine ⟨by decide, by decide, by decide⟩

/-- C10 (amended): wrapping a payload under an entry key is transparent for
every payload that does not itself carry an object under an entry key. -/
theorem wrapped_entry_equiv :
    ∀ (store : Store) (E : Json), isObjOpt (jGet E "entry") = false →
      createEntry store (Json.obj [("entry", E)]) = createEntry store E := by
  intro store E h
  cases E with
  | null => rfl
  | int a => rfl
  | str a => rfl
  | arr a => rfl
  | obj fields =>
    have hR : unwrapEntry (Json.obj fields) = Json.obj fields := by
      unfold unwrapEntry
      cases hg : jGet (Json.obj fields) "entry" with
      | none => rfl
      | some v =>
        cases v with
        | null => rfl
        | int b => rfl
        | str b => rfl
        | arr b => rfl
        | obj b =>
          rw [hg] at h
          cases h
    simp only [createEntry]
    rw [hR]
    rfl

theorem c10_witness :
    isObjOpt (jGet (Json.obj [("type", Json.str "ingredient"), ("name", Json.str "b"),
      ("cookTime", Json.int 2)]) "entry") = false ∧
    createEntry [] (Json.obj [("entry", Json.obj [("type", Json.str "ingredient"),
      ("name", Json.str "b"), ("cookTime", Json.int 2)])]) =
    createEntry [] (Json.obj [("type", Json.str "ingredient"), ("name", Json.str "b"),
      ("cookTime", Json.int 2)]) :=
  ⟨rfl, wrapped_entry_equiv [] (Json.obj [("type", Json.str "ingredient"),
    ("name", Json.str "b"), ("cookTime", Json.int 2)]) rfl⟩

theorem notOther_applyCreate {s : Store} (hs : NotOther s) (p : Json) :
    NotOther (applyCreate s p) := by
  unfold applyCreate
  cases hc : createEntry s p with
  | none => exact hs
  | some s' =>
    obtain ⟨nm2, e2, _, _, hshape, hother⟩ := createEntry_some hc
    intro nm e h
    simp only [Option.getD] at h
    rw [hshape, lookup_append] at h
    cases hl : List.lookup nm s with
    | some v =>
      rw [hl] at h
      cases h
      exact hs nm _ hl
    | none =>
      rw [hl] at h
      simp only [Option.orElse] at h
      by_cases hk : nm = nm2
      · subst hk
        simp [List.lookup] at h
        subst h
        exact hother
      · have hba : (nm == nm2) = false := by simpa using hk
        simp [List.lookup, hba] at h

theorem notOther_buildStore (reqs : List Json) : NotOther (buildStore reqs) := by
  have main : ∀ (rs : List Json) (s : Store), NotOther s → NotOther (rs.foldl applyCreate s) := by
    intro rs
    induction rs with
    | nil => intro s hs; exact hs
    | cons p rest ih =>
      intro s hs
      exact ih (applyCreate s p) (notOther_applyCreate hs p)
  refine main reqs [] ?_
  intro nm e h
  cases h

theorem expandReqsAux_no_unknown
    (f : String → Int → Acc → Except ExpErr (Int × Acc))
    (hf : ∀ nm m a, isUnknownErr (f nm m a) = false) :
    ∀ reqs mult acc, isUnknownErr (expandReqsAux f reqs mult acc) = false := by
  intro reqs
  induction reqs with
  | nil => intro mult acc; rfl
  | cons req rest ih =>
    intro mult acc
    simp only [expandReqsAux]
    cases hE : f req.name (mult * req.quantity) acc with
    | error e =>
      have := hf req.name (mult * req.quantity) acc
      rw [hE] at this
      exact this
    | ok p =>
      obtain ⟨t, acc2⟩ := p
      show isUnknownErr (match expandReqsAux f rest mult acc2 with
        | Except.error e => Except.error e
        | Except.ok (t2, acc3) => Except.ok (t + t2, acc3)) = false
      cases hR : expandReqsAux f rest mult acc2 with
      | error e2 =>
        have := ih mult acc2
        rw [hR] at this
        exact this
      | ok p2 =>
        obtain ⟨t2, acc3⟩ := p2
        rfl

theorem expandFuel_no_unknown {store : Store} (hs : NotOther store) :
    ∀ fuel nm mult acc, isUnknownErr (expandFuel store fuel nm mult acc) = false := by
  intro fuel
  induction fuel with
  | zero => intro nm mult acc; rfl
  | succ n ih =>
    intro nm mult acc
    show isUnknownErr (match List.lookup nm store with
      | none => Except.error ExpErr.missingEntry
      | some (Entry.ingredient nm2 ct) => Except.ok (ct * mult, accAdd acc nm2 mult)
      | some (Entry.recipe _ reqs) => expandReqsAux (expandFuel store n) reqs mult acc
      | some Entry.other => Except.error ExpErr.unknownEntryType) = false
    cases hl : List.lookup nm store with
    | none => rfl
    | some e =>
      cases e with
      | ingredient a b => rfl
      | recipe a reqs => exact expandReqsAux_no_unknown (expandFuel store n) ih reqs mult acc
      | other => exact absurd rfl (hs nm Entry.other hl)

/-- C9: on any store reachable through POST /entry alone, the expander can
never end in the unknown-entry-type fallback error, whatever name,
multiplier, accumulator and stack budget it is run with. -/
theorem expander_unknown_type_unreachable :
    ∀ (reqs : List Json) (fuel : Nat) (nm : String) (mult : Int) (acc : Acc),
      isUnknownErr (expandFuel (buildStore reqs) fuel nm mult acc) = false :=
  fun reqs fuel nm mult acc =>
    expandFuel_no_unknown (notOther_buildStore reqs) fuel nm mult acc

theorem c5_witness :
    createEntry [] dupPayload = none ∧ applyCreate [] dupPayload = [] :=
  duplicate_required_items_rejected [] dupPayload [dupItem, dupItem] 0 1 "x"
    (by decide) (by decide) (by decide) rfl rfl rfl rfl

end Devdonalds
